import Mathlib

/-!
Verification of the face matching and enrollment engine of the
FacialRecognition repository.

The development shallowly embeds the Python sources:

* `database_manager.py` — the SQLite gallery store, modelled as association
  lists of rows (`Database`).  The `persons` table has AUTOINCREMENT ids and a
  UNIQUE name column; the `face_encodings` table declares
  `ON DELETE CASCADE` on its `person_id` foreign key, which is modelled by
  `delete_person` removing the matching encoding rows together with the
  person row.  Payloads (128-d vectors for the embedding engine, 200x200
  grayscale patches for the LBPH engine) are opaque, so `Database` is
  polymorphic in the payload type.
* `face_recognition_engine.py` — "Strategy A", the embedding-distance engine
  (`EngineA`).  The external `face_recognition` library computes, for one
  probe encoding, the list of Euclidean distances to every gallery encoding
  (`face_distance`) and the elementwise threshold test
  `compare_faces = [d <= tolerance for d in distances]`; the embedding takes
  the per-probe distance list as input and models `compare_faces` and
  `np.argmin` (first index of the minimum) exactly.
* `face_recognition_engine_opencv.py` — "Strategy B", the LBPH classifier
  engine (`EngineB`).  The external `cv2` predictor returns a `(label, score)`
  pair per face patch; the embedding takes that pair as input.
* `main.py` — the enrollment loop `process_registration_frame`, modelled as a
  step function on `AppState` with an explicit clock argument.
-/

namespace FacialRec

/-- A person's name: the persons table declares `name TEXT UNIQUE NOT NULL`. -/
abbrev Identity := String

/-- A face region as `(top, right, bottom, left)` pixel offsets. -/
abbrev FaceLocation := Nat × Nat × Nat × Nat

/-- Strategy A confidence (`face_recognition_engine.py` line 118):
`confidence = max(0, (1 - face_distances[best_match_index]) * 100)`. -/
def confidenceA (d : ℚ) : ℚ := max 0 ((1 - d) * 100)

/-- Strategy B confidence (`face_recognition_engine_opencv.py` line 148):
`conf_percentage = max(0, 100 - confidence)`. -/
def confidenceB (score : ℚ) : ℚ := max 0 (100 - score)

/-- Default tolerance of the embedding engine (`tolerance: float = 0.6`). -/
def defaultToleranceA : ℚ := 6 / 10

/-- Default tolerance of the LBPH engine (`tolerance: float = 100.0`). -/
def defaultToleranceB : ℚ := 100

/-- `np.min` of a distance list (0 on the empty list, which the engine never
minimises over thanks to the `len(face_distances) > 0` guard). -/
def listMin : List ℚ → ℚ
  | [] => 0
  | d :: ds => ds.foldl min d

/-- `np.argmin`: the index of the first occurrence of the minimum. -/
def argmin (ds : List ℚ) : Nat := ds.indexOf (listMin ds)

/-- `face_recognition.compare_faces(known, probe, tolerance)`: the library
returns `[face_distance(k, probe) <= tolerance for k in known]`, i.e. the
elementwise threshold test on the same distances used for the arg-min. -/
def compare_faces (ds : List ℚ) (tol : ℚ) : List Bool :=
  ds.map (fun d => decide (d ≤ tol))

/-- Loop body of `FaceRecognitionEngine.recognize_faces`
(`face_recognition_engine.py` lines 94-120) for one detected face, as a
function of the probe's distances `ds` to the gallery encodings, with
`names` the parallel `known_names` list:
`name = "Unknown"; confidence = 0.0;` then, if there are distances and
`matchFlags[best_match_index]` holds for `best_match_index = np.argmin(...)`,
the name and confidence are overwritten.  (Python's `names[best]` indexing
cannot fail because `known_names` and `known_encodings` have equal length;
the model totalises it with `getD`.) -/
def recognize_face_one (names : List Identity) (ds : List ℚ) (tol : ℚ) :
    Identity × ℚ :=
  let matchFlags := compare_faces ds tol
  if 0 < ds.length then
    let best := argmin ds
    if matchFlags.getD best false then
      (names.getD best "Unknown", confidenceA (ds.getD best 0))
    else
      ("Unknown", 0)
  else
    ("Unknown", 0)

/-- Loop body of the LBPH `recognize_faces`
(`face_recognition_engine_opencv.py` lines 131-150) for one detected face,
as a function of the `(label, score)` pair the external predictor returned:
`if confidence < self.tolerance and label in self.label_to_name:` accept,
else keep `("Unknown", 0.0)`. -/
def recognize_face_one_lbph (label_to_name : List (Nat × Identity)) (tol : ℚ)
    (label : Nat) (score : ℚ) : Identity × ℚ :=
  if score < tol then
    match label_to_name.lookup label with
    | some n => (n, confidenceB score)
    | none => ("Unknown", 0)
  else
    ("Unknown", 0)

/-- The SQLite store of `database_manager.py`: `persons` rows are
`(id, name)` in insertion order with ids handed out by AUTOINCREMENT
(`nextPersonId`); `face_encodings` rows are `(person_id, payload)` in
insertion order.  The payload type is opaque to the store. -/
structure Database (α : Type) where
  nextPersonId : Nat
  persons : List (Nat × Identity)
  encodings : List (Nat × α)

/-- `SELECT id FROM persons WHERE name = ?` (names are UNIQUE, so the first
match is the only match). -/
def find_person_id (db : Database α) (name : Identity) : Option Nat :=
  (db.persons.find? (fun p => decide (p.2 = name))).map Prod.fst

/-- `DatabaseManager.add_person`: INSERT the new name, or — on the UNIQUE
IntegrityError — re-query and return the existing id.  (The source's
`return result[0] if result else None` fallback to `None` is unreachable:
the IntegrityError only fires when the name exists, in which case the
re-query succeeds, so the model returns the id directly.) -/
def add_person (db : Database α) (name : Identity) : Nat × Database α :=
  match find_person_id db name with
  | some pid => (pid, db)
  | none =>
      (db.nextPersonId,
       { db with
          nextPersonId := db.nextPersonId + 1,
          persons := db.persons ++ [(db.nextPersonId, name)] })

/-- `DatabaseManager.add_face_encoding`: INSERT one encoding row. -/
def add_face_encoding (db : Database α) (pid : Nat) (payload : α) :
    Database α :=
  { db with encodings := db.encodings ++ [(pid, payload)] }

/-- `DatabaseManager.get_all_encodings`: the join
`SELECT p.name, fe.encoding FROM face_encodings fe JOIN persons p ON
fe.person_id = p.id`, scanning encoding rows in insertion order. -/
def get_all_encodings (db : Database α) : List (Identity × α) :=
  db.encodings.filterMap
    (fun e => (db.persons.lookup e.1).map (fun n => (n, e.2)))

/-- `DatabaseManager.get_person_encodings`: the same join restricted to one
name. -/
def get_person_encodings (db : Database α) (name : Identity) : List α :=
  (get_all_encodings db).filterMap
    (fun r => if r.1 = name then some r.2 else none)

/-- `DatabaseManager.delete_person`: `DELETE FROM persons WHERE name = ?`,
returning `cursor.rowcount > 0`; the schema's `ON DELETE CASCADE` removes
the deleted person's encoding rows with it. -/
def delete_person (db : Database α) (name : Identity) : Bool × Database α :=
  let deletedIds := (db.persons.filter (fun p => decide (p.2 = name))).map Prod.fst
  (db.persons.any (fun p => decide (p.2 = name)),
   { db with
      persons := db.persons.filter (fun p => !decide (p.2 = name)),
      encodings := db.encodings.filter (fun e => !deletedIds.contains e.1) })

/-- `DatabaseManager.get_all_persons`: names with their encoding counts and
registration dates, `ORDER BY p.registered_date DESC`.  Registration dates
are strictly increasing in insertion order, so the DESC order is the reverse
of the persons list; the model uses the person id as the date proxy. -/
def get_all_persons (db : Database α) : List (Identity × Nat × Nat) :=
  db.persons.reverse.map
    (fun p => (p.2, (db.encodings.filter (fun e => decide (e.1 = p.1))).length, p.1))

/-- `DatabaseManager.get_person_count`: `SELECT COUNT(*) FROM persons`. -/
def get_person_count (db : Database α) : Nat := db.persons.length

/-- `DatabaseManager.person_exists`. -/
def person_exists (db : Database α) (name : Identity) : Bool :=
  db.persons.any (fun p => decide (p.2 = name))

/-- `DatabaseManager.clear_all_data`. -/
def clear_all_data (db : Database α) : Database α :=
  { db with persons := [], encodings := [] }

/-- The embedding engine of `face_recognition_engine.py`: the store plus the
in-memory cache `known_names` / `known_encodings` (parallel lists). -/
structure EngineA where
  db : Database (List ℚ)
  tolerance : ℚ
  known_names : List Identity
  known_encodings : List (List ℚ)

/-- `FaceRecognitionEngine.load_known_faces` (embedding variant): rebuild
both cache lists from `get_all_encodings`. -/
def loadA (db : Database (List ℚ)) (tol : ℚ) : EngineA :=
  let rows := get_all_encodings db
  ⟨db, tol, rows.map Prod.fst, rows.map Prod.snd⟩

/-- `FaceRecognitionEngine.recognize_faces` (embedding variant): empty result
on an empty cache, otherwise the per-face rule applied to each detected
face's distance list. -/
def recognize_faces_A (e : EngineA) (probeDists : List (List ℚ)) :
    List (Identity × ℚ) :=
  if e.known_encodings.length = 0 then []
  else probeDists.map (fun ds => recognize_face_one e.known_names ds e.tolerance)

/-- `FaceRecognitionEngine.register_face` (embedding variant,
`face_recognition_engine.py` lines 124-162): `locs` are the detected face
locations and `encs` the encodings the external library produced for them
(possibly empty — the "Failed to encode face" branch). -/
def register_face_A (e : EngineA) (locs : List FaceLocation)
    (encs : List (List ℚ)) (name : Identity) : (Bool × String) × EngineA :=
  if locs.length = 0 then
    ((false, "No face detected"), e)
  else if 1 < locs.length then
    ((false, "Multiple faces detected - only one person should be visible"), e)
  else if encs.length = 0 then
    ((false, "Failed to encode face"), e)
  else
    let pd := add_person e.db name
    let db2 := add_face_encoding pd.2 pd.1 (encs.headD [])
    ((true, "Face registered successfully"), loadA db2 e.tolerance)

/-- `FaceRecognitionEngine.delete_person` (embedding variant): delete from
the store and reload the cache if a row was removed. -/
def delete_person_A (e : EngineA) (name : Identity) : Bool × EngineA :=
  let r := delete_person e.db name
  (r.1, if r.1 then loadA r.2 e.tolerance else { e with db := r.2 })

/-- `FaceRecognitionEngine.get_statistics` (embedding variant):
`(total_persons, total_encodings, tolerance)` with
`total_encodings = len(self.known_encodings)`. -/
def get_statistics_A (e : EngineA) : Nat × Nat × ℚ :=
  (get_person_count e.db, e.known_encodings.length, e.tolerance)

/-- The LBPH engine of `face_recognition_engine_opencv.py`: the store plus
the label maps and the trained flag. -/
structure EngineB (α : Type) where
  db : Database α
  tolerance : ℚ
  label_to_name : List (Nat × Identity)
  name_to_label : List (Identity × Nat)
  trained : Bool

/-- `FaceRecognitionEngine.load_known_faces` (LBPH variant): when the store
has no persons, only the trained flag is cleared (the stale label maps are
kept, exactly as in the source); otherwise labels `0, 1, ...` are assigned
over `get_all_persons` order and the recognizer is trained on all collected
patches — `trained` records whether any patch existed. -/
def loadB (e : EngineB α) (db : Database α) : EngineB α :=
  let ps := get_all_persons db
  if ps.length = 0 then
    { e with db := db, trained := false }
  else
    let ltn := ps.enum.map (fun ip => (ip.1, ip.2.1))
    let ntl := ps.enum.map (fun ip => (ip.2.1, ip.1))
    let nfaces := (ps.map (fun p => (get_person_encodings db p.1).length)).sum
    { e with db := db, label_to_name := ltn, name_to_label := ntl,
             trained := 0 < nfaces }

/-- The LBPH engine as built by `__init__`: empty maps, untrained, then
`load_known_faces`. -/
def mkEngineB (db : Database α) (tol : ℚ) : EngineB α :=
  loadB ⟨db, tol, [], [], false⟩ db

/-- `FaceRecognitionEngine.recognize_faces` (LBPH variant): empty result when
untrained, otherwise the per-face rule applied to the `(label, score)` pair
the external predictor returned for each detected face. -/
def recognize_faces_B (e : EngineB α) (preds : List (Nat × ℚ)) :
    List (Identity × ℚ) :=
  if e.trained = false then []
  else preds.map (fun p => recognize_face_one_lbph e.label_to_name e.tolerance p.1 p.2)

/-- `FaceRecognitionEngine.register_face` (LBPH variant,
`face_recognition_engine_opencv.py` lines 154-194): `locs` are the detected
face locations and `patch` the resized grayscale crop of the single face. -/
def register_face_B (e : EngineB α) (locs : List FaceLocation) (patch : α)
    (name : Identity) : (Bool × String) × EngineB α :=
  if locs.length = 0 then
    ((false, "No face detected"), e)
  else if 1 < locs.length then
    ((false, "Multiple faces detected - only one person should be visible"), e)
  else
    let pd := add_person e.db name
    let db2 := add_face_encoding pd.2 pd.1 patch
    ((true, "Face registered successfully"), loadB e db2)

/-- `FaceRecognitionEngine.delete_person` (LBPH variant). -/
def delete_person_B (e : EngineB α) (name : Identity) : Bool × EngineB α :=
  let r := delete_person e.db name
  (r.1, if r.1 then loadB e r.2 else { e with db := r.2 })

/-- `FaceRecognitionEngine.get_statistics` (LBPH variant): note the source
reports `total_encodings` as `len(self.label_to_name)`. -/
def get_statistics_B (e : EngineB α) : Nat × Nat × ℚ :=
  (get_person_count e.db, e.label_to_name.length, e.tolerance)

/-- The enrollment state of `FacialRecognitionApp` (`main.py`): mode flag,
captured count, last-capture timestamp, target identity, target sample
count, debounce interval and the engine. -/
structure AppState (α : Type) where
  registration_mode : Bool
  registration_count : Nat
  last_capture_time : ℚ
  registration_name : Identity
  target_samples : Nat
  capture_delay : ℚ
  face_engine : EngineB α

/-- Default debounce interval (`self.capture_delay = 0.5`). -/
def defaultCaptureDelay : ℚ := 1 / 2

/-- `FacialRecognitionApp.process_registration_frame` (`main.py` lines
200-241), with the clock passed explicitly: `locs` are the faces detected in
the frame and `patch` the crop `register_face` would extract from it.
On a frame without exactly one face only the display changes; otherwise a
capture is attempted when `now - last_capture_time >= capture_delay` and the
count is below target, and on success the count and timestamp advance and
`complete_registration` (which clears `registration_mode`) fires when the
count reaches the target. -/
def process_registration_frame (s : AppState α) (locs : List FaceLocation)
    (patch : α) (now : ℚ) : AppState α :=
  if locs.length ≠ 1 then s
  else if s.capture_delay ≤ now - s.last_capture_time then
    if s.registration_count < s.target_samples then
      let r := register_face_B s.face_engine locs patch s.registration_name
      if r.1.1 then
        let s1 := { s with
          registration_count := s.registration_count + 1,
          last_capture_time := now,
          face_engine := r.2 }
        if s1.target_samples ≤ s1.registration_count then
          { s1 with registration_mode := false }
        else s1
      else { s with face_engine := r.2 }
    else s
  else s

/-! ### Facts about `listMin` and `argmin` -/

theorem foldl_min_le_init : ∀ (l : List ℚ) (a : ℚ), l.foldl min a ≤ a
  | [], _ => le_refl _
  | d :: ds, a => by
      simp only [List.foldl_cons]
      exact le_trans (foldl_min_le_init ds (min a d)) (min_le_left a d)

theorem foldl_min_le_mem : ∀ (l : List ℚ) (x a : ℚ), x ∈ l → l.foldl min a ≤ x
  | [], x, _, hx => absurd hx (List.not_mem_nil x)
  | d :: ds, x, a, hx => by
      simp only [List.foldl_cons]
      rcases List.mem_cons.1 hx with h | h
      · subst h
        exact le_trans (foldl_min_le_init ds (min a x)) (min_le_right a x)
      · exact foldl_min_le_mem ds x (min a d) h

theorem foldl_min_self_or_mem : ∀ (l : List ℚ) (a : ℚ),
    l.foldl min a = a ∨ l.foldl min a ∈ l
  | [], _ => Or.inl rfl
  | d :: ds, a => by
      simp only [List.foldl_cons]
      rcases foldl_min_self_or_mem ds (min a d) with h | h
      · rcases min_choice a d with h2 | h2
        · exact Or.inl (h.trans h2)
        · exact Or.inr (by rw [h, h2]; exact List.mem_cons_self d ds)
      · exact Or.inr (List.mem_cons_of_mem d h)

theorem listMin_mem : ∀ {l : List ℚ}, l ≠ [] → listMin l ∈ l
  | [], h => absurd rfl h
  | d :: ds, _ => by
      show ds.foldl min d ∈ d :: ds
      rcases foldl_min_self_or_mem ds d with h2 | h2
      · rw [h2]; exact List.mem_cons_self d ds
      · exact List.mem_cons_of_mem d h2

theorem listMin_le : ∀ {l : List ℚ} {x : ℚ}, x ∈ l → listMin l ≤ x
  | [], _, hx => absurd hx (List.not_mem_nil _)
  | d :: ds, x, hx => by
      rcases List.mem_cons.1 hx with h | h
      · subst h; exact foldl_min_le_init ds x
      · exact foldl_min_le_mem ds x d h

theorem argmin_lt_length {l : List ℚ} (h : l ≠ []) : argmin l < l.length :=
  List.indexOf_lt_length.2 (listMin_mem h)

theorem getD_argmin {l : List ℚ} (h : l ≠ []) : l.getD (argmin l) 0 = listMin l := by
  rw [List.getD_eq_getElem l 0 (argmin_lt_length h)]
  exact List.getElem_indexOf (argmin_lt_length h)

theorem getD_argmin_le {l : List ℚ} (h : l ≠ []) {x : ℚ} (hx : x ∈ l) :
    l.getD (argmin l) 0 ≤ x := by
  rw [getD_argmin h]; exact listMin_le hx

/-- Claim C1: Strategy A acceptance.  For a detected face whose distances to
the non-empty gallery are `ds`, the entry at `argmin ds` is the minimal
distance, and the face is labelled with the gallery identity at the arg-min
index (with the engine's confidence) exactly when that minimal distance is
within tolerance — the elementwise `compare_faces` test at the arg-min pair
and the "minimal distance ≤ tolerance" test coincide; otherwise the identity
is the sentinel "Unknown" with confidence 0.  The final conjunct lifts the
per-face rule to `recognize_faces`, which applies it to every detected face
of a frame whenever the gallery cache is non-empty. -/
theorem strategyA_argmin_threshold_accept (names : List Identity) (ds : List ℚ)
    (tol : ℚ) (hne : ds ≠ []) :
    (ds.all (fun d => decide (ds.getD (argmin ds) 0 ≤ d)) = true)
    ∧ recognize_face_one names ds tol =
        (if ds.getD (argmin ds) 0 ≤ tol
         then (names.getD (argmin ds) "Unknown", confidenceA (ds.getD (argmin ds) 0))
         else ("Unknown", 0))
    ∧ ∀ (e : EngineA) (probeDists : List (List ℚ)), e.known_encodings ≠ [] →
        recognize_faces_A e probeDists =
          probeDists.map (fun l => recognize_face_one e.known_names l e.tolerance) := by
  refine ⟨?_, ?_, ?_⟩
  · rw [List.all_eq_true]
    intro d hd
    exact decide_eq_true (getD_argmin_le hne hd)
  · have hlt : argmin ds < ds.length := argmin_lt_length hne
    have hmap : (compare_faces ds tol).getD (argmin ds) false =
        decide (ds.getD (argmin ds) 0 ≤ tol) := by
      have hlt' : argmin ds < (compare_faces ds tol).length := by
        simpa [compare_faces] using hlt
      rw [List.getD_eq_getElem _ false hlt', List.getD_eq_getElem ds 0 hlt]
      simp [compare_faces]
    rw [recognize_face_one]
    simp only [hmap]
    have hpos : 0 < ds.length := List.length_pos.2 hne
    by_cases h : ds.getD (argmin ds) 0 ≤ tol
    · simp [hpos, h]
    · simp [hpos, h]
  · intro e probeDists hcache
    rw [recognize_faces_A, if_neg (by simpa using List.length_pos.2 hcache |>.ne')]

/-- Claim C4: Strategy B acceptance.  For a detected face patch on which the
classifier predicted `(label, score)`, either the score is below tolerance
and the label is present in the label map — and then the result is that
label's name with confidence `max(0, 100 - score)` — or one of the two
conditions fails and the result is the sentinel "Unknown" with
confidence 0. -/
theorem strategyB_threshold_accept (ltn : List (Nat × Identity)) (tol : ℚ)
    (label : Nat) (score : ℚ) :
    (score < tol ∧ ∃ n, ltn.lookup label = some n ∧
        recognize_face_one_lbph ltn tol label score = (n, confidenceB score))
    ∨ ((¬ score < tol ∨ ltn.lookup label = none) ∧
        recognize_face_one_lbph ltn tol label score = ("Unknown", 0)) := by
  by_cases h : score < tol
  · cases hl : ltn.lookup label with
    | some n =>
        exact Or.inl ⟨h, n, rfl, by rw [recognize_face_one_lbph, if_pos h, hl]⟩
    | none =>
        exact Or.inr ⟨Or.inr rfl, by rw [recognize_face_one_lbph, if_pos h, hl]⟩
  · exact Or.inr ⟨Or.inl h, by rw [recognize_face_one_lbph, if_neg h]⟩

/-- Claim C7: for both strategies the confidence is monotonically decreasing
in the raw distance/score, and — since Euclidean distances and LBPH scores
are nonnegative — it lies in [0, 100] for every such input, including
Strategy A distances greater than 1 (where the clamp at 0 applies). -/
theorem confidence_monotone_and_clamped :
    (∀ d₁ d₂ : ℚ, d₁ ≤ d₂ → confidenceA d₂ ≤ confidenceA d₁)
    ∧ (∀ s₁ s₂ : ℚ, s₁ ≤ s₂ → confidenceB s₂ ≤ confidenceB s₁)
    ∧ (∀ d : ℚ, 0 ≤ d → 0 ≤ confidenceA d ∧ confidenceA d ≤ 100)
    ∧ (∀ s : ℚ, 0 ≤ s → 0 ≤ confidenceB s ∧ confidenceB s ≤ 100) := by
  refine ⟨?_, ?_, ?_, ?_⟩
  · intro d₁ d₂ h
    unfold confidenceA
    apply max_le (le_max_left _ _)
    apply le_max_of_le_right
    nlinarith
  · intro s₁ s₂ h
    unfold confidenceB
    apply max_le (le_max_left _ _)
    apply le_max_of_le_right
    linarith
  · intro d hd
    refine ⟨le_max_left _ _, ?_⟩
    unfold confidenceA
    apply max_le (by norm_num)
    nlinarith
  · intro s hs
    refine ⟨le_max_left _ _, ?_⟩
    unfold confidenceB
    apply max_le (by norm_num)
    linarith

/-- Witness for claim C7 at concrete inputs, with the Strategy A interval
check taken at distance 2 > 1. -/
theorem confidence_monotone_and_clamped_witness :
    confidenceA 2 ≤ confidenceA (1 / 2)
    ∧ confidenceB 70 ≤ confidenceB 30
    ∧ (0 ≤ confidenceA 2 ∧ confidenceA 2 ≤ 100)
    ∧ (0 ≤ confidenceB 30 ∧ confidenceB 30 ≤ 100) :=
  ⟨confidence_monotone_and_clamped.1 (1 / 2) 2 (by norm_num),
   confidence_monotone_and_clamped.2.1 30 70 (by norm_num),
   confidence_monotone_and_clamped.2.2.1 2 (by norm_num),
   confidence_monotone_and_clamped.2.2.2 30 (by norm_num)⟩

/-- Witness for claim C1 at a concrete two-vector gallery whose minimal
distance 1/2 passes the default tolerance, and a concrete loaded engine. -/
theorem strategyA_argmin_threshold_accept_witness :
    (([(7 : ℚ)/10, 1/2]).all
        (fun d => decide (([(7 : ℚ)/10, 1/2]).getD (argmin [(7 : ℚ)/10, 1/2]) 0 ≤ d)) = true)
    ∧ recognize_face_one ["a", "b"] [(7 : ℚ)/10, 1/2] (6/10) =
        (if ([(7 : ℚ)/10, 1/2]).getD (argmin [(7 : ℚ)/10, 1/2]) 0 ≤ (6/10 : ℚ)
         then (["a", "b"].getD (argmin [(7 : ℚ)/10, 1/2]) "Unknown",
               confidenceA (([(7 : ℚ)/10, 1/2]).getD (argmin [(7 : ℚ)/10, 1/2]) 0))
         else ("Unknown", 0))
    ∧ recognize_faces_A (loadA ⟨2, [(1, "a")], [(1, [0])]⟩ (6/10)) [[(1 : ℚ)/4]] =
        [[(1 : ℚ)/4]].map
          (fun l => recognize_face_one (loadA ⟨2, [(1, "a")], [(1, [0])]⟩ (6/10)).known_names l
            (loadA ⟨2, [(1, "a")], [(1, [0])]⟩ (6/10)).tolerance) := by
  have T := strategyA_argmin_threshold_accept ["a", "b"] [(7 : ℚ)/10, 1/2] (6/10) (by decide)
  exact ⟨T.1, T.2.1, T.2.2 (loadA ⟨2, [(1, "a")], [(1, [0])]⟩ (6/10)) [[(1 : ℚ)/4]] (by decide)⟩

theorem lookup_mem_values : ∀ {l : List (Nat × Identity)} {k : Nat} {v : Identity},
    l.lookup k = some v → v ∈ l.map Prod.snd
  | [], _, _, h => by simp [List.lookup] at h
  | (a, b) :: t, k, v, h => by
      by_cases hk : k == a
      · simp only [List.lookup, hk] at h
        simp only [List.map_cons]
        injection h with h2
        rw [← h2]
        exact List.mem_cons_self b (t.map Prod.snd)
      · simp only [List.lookup, Bool.not_eq_true] at hk
        simp only [List.lookup, hk] at h
        exact List.mem_cons_of_mem _ (lookup_mem_values h)

/-- Unfolding equation for `recognize_face_one` (definitional). -/
theorem recognize_face_one_def (names : List Identity) (ds : List ℚ) (tol : ℚ) :
    recognize_face_one names ds tol =
      if 0 < ds.length then
        if (compare_faces ds tol).getD (argmin ds) false then
          (names.getD (argmin ds) "Unknown", confidenceA (ds.getD (argmin ds) 0))
        else ("Unknown", 0)
      else ("Unknown", 0) := rfl

theorem compare_faces_single_true {d tol : ℚ} (h : d ≤ tol) :
    compare_faces [d] tol = [true] := by
  simp only [compare_faces, List.map_cons, List.map_nil]
  rw [decide_eq_true h]

theorem argmin_single (d : ℚ) : argmin [d] = 0 := by
  simp [argmin, listMin, List.indexOf_cons_self]

theorem confidenceA_zero : confidenceA 0 = 100 := by
  rw [confidenceA, show ((1 : ℚ) - 0) * 100 = 100 by norm_num,
    max_eq_right (by norm_num : (0 : ℚ) ≤ 100)]

/-- Claim C10, counterexample: nothing prevents the gallery from containing a
person literally named "Unknown" (the GUI's name validation accepts the
string, and the store treats it as any other name).  Matching that person at
distance 0 yields a result whose identity string is "Unknown" with
confidence 100, not 0, so the claim as stated fails. -/
theorem sentinel_zero_confidence_counterexample :
    (recognize_face_one ["Unknown"] [0] (6/10)).1 = "Unknown"
    ∧ (recognize_face_one ["Unknown"] [0] (6/10)).2 = 100 := by
  have hval : recognize_face_one ["Unknown"] [(0 : ℚ)] (6/10) = ("Unknown", 100) := by
    rw [recognize_face_one_def, argmin_single,
      compare_faces_single_true (by norm_num : (0 : ℚ) ≤ 6/10)]
    simpa using confidenceA_zero
  rw [hval]
  exact ⟨rfl, rfl⟩

/-- Claim C10 as amended: provided the sentinel string "Unknown" is not
itself a registered gallery name, and the Strategy A cache lists are aligned
(`known_names` and the per-probe distance list have equal length, which
`load_known_faces` guarantees), every result whose identity is "Unknown"
carries confidence exactly 0, and a non-zero confidence is only ever paired
with a name taken from the loaded gallery (`known_names` for Strategy A,
the values of `label_to_name` for Strategy B). -/
theorem sentinel_zero_confidence_amended (names : List Identity) (ds : List ℚ)
    (tol : ℚ) (ltn : List (Nat × Identity)) (tolB score : ℚ) (label : Nat)
    (hlen : names.length = ds.length)
    (hA : "Unknown" ∉ names) (hB : "Unknown" ∉ ltn.map Prod.snd) :
    ((recognize_face_one names ds tol).1 = "Unknown" →
        (recognize_face_one names ds tol).2 = 0)
    ∧ ((recognize_face_one names ds tol).2 ≠ 0 →
        (recognize_face_one names ds tol).1 ∈ names)
    ∧ ((recognize_face_one_lbph ltn tolB label score).1 = "Unknown" →
        (recognize_face_one_lbph ltn tolB label score).2 = 0)
    ∧ ((recognize_face_one_lbph ltn tolB label score).2 ≠ 0 →
        (recognize_face_one_lbph ltn tolB label score).1 ∈ ltn.map Prod.snd) := by
  have hAcase : recognize_face_one names ds tol = ("Unknown", 0)
      ∨ ((recognize_face_one names ds tol).1 ∈ names
          ∧ (recognize_face_one names ds tol).1 ≠ "Unknown") := by
    by_cases hpos : 0 < ds.length
    · by_cases hflag : (compare_faces ds tol).getD (argmin ds) false = true
      · right
        have hblt : argmin ds < ds.length := by
          by_contra hge
          have hge' : (compare_faces ds tol).length ≤ argmin ds := by
            simpa [compare_faces] using Nat.le_of_not_lt hge
          rw [List.getD_eq_default _ _ hge'] at hflag
          exact Bool.false_ne_true hflag
        have hres : recognize_face_one names ds tol =
            (names.getD (argmin ds) "Unknown", confidenceA (ds.getD (argmin ds) 0)) := by
          rw [recognize_face_one_def, if_pos hpos, if_pos hflag]
        have hmem : names.getD (argmin ds) "Unknown" ∈ names := by
          rw [List.getD_eq_getElem names "Unknown" (hlen ▸ hblt)]
          exact List.getElem_mem _
        rw [hres]
        exact ⟨hmem, fun hcontra => hA (hcontra ▸ hmem)⟩
      · left; rw [recognize_face_one_def, if_pos hpos, if_neg hflag]
    · left; rw [recognize_face_one_def, if_neg hpos]
  have hBcase : recognize_face_one_lbph ltn tolB label score = ("Unknown", 0)
      ∨ ((recognize_face_one_lbph ltn tolB label score).1 ∈ ltn.map Prod.snd
          ∧ (recognize_face_one_lbph ltn tolB label score).1 ≠ "Unknown") := by
    by_cases hs : score < tolB
    · cases hl : ltn.lookup label with
      | some n =>
          right
          have hres : recognize_face_one_lbph ltn tolB label score = (n, confidenceB score) := by
            rw [recognize_face_one_lbph, if_pos hs, hl]
          have hmem : n ∈ ltn.map Prod.snd := lookup_mem_values hl
          rw [hres]
          exact ⟨hmem, fun hcontra => hB (hcontra ▸ hmem)⟩
      | none => left; rw [recognize_face_one_lbph, if_pos hs, hl]
    · left; rw [recognize_face_one_lbph, if_neg hs]
  refine ⟨?_, ?_, ?_, ?_⟩
  · intro h
    rcases hAcase with hc | hc
    · rw [hc]
    · exact absurd h hc.2
  · intro h
    rcases hAcase with hc | hc
    · rw [hc] at h; simp at h
    · exact hc.1
  · intro h
    rcases hBcase with hc | hc
    · rw [hc]
    · exact absurd h hc.2
  · intro h
    rcases hBcase with hc | hc
    · rw [hc] at h; simp at h
    · exact hc.1

/-- Witness for the amended claim C10 at a concrete accepted match: the
non-zero-confidence result name is a gallery name. -/
theorem sentinel_zero_confidence_amended_witness :
    (recognize_face_one ["alice"] [0] (6/10)).1 ∈ ["alice"] := by
  have hval : recognize_face_one ["alice"] [(0 : ℚ)] (6/10) = ("alice", 100) := by
    rw [recognize_face_one_def, argmin_single,
      compare_faces_single_true (by norm_num : (0 : ℚ) ≤ 6/10)]
    simpa using confidenceA_zero
  exact (sentinel_zero_confidence_amended ["alice"] [0] (6/10) [(0, "alice")] 100 30 0
    rfl (by simp) (by simp)).2.1 (by rw [hval]; norm_num)

/-- Unfolding equation for `register_face_A` (definitional). -/
theorem register_face_A_def (e : EngineA) (locs : List FaceLocation)
    (encs : List (List ℚ)) (name : Identity) :
    register_face_A e locs encs name =
      if locs.length = 0 then ((false, "No face detected"), e)
      else if 1 < locs.length then
        ((false, "Multiple faces detected - only one person should be visible"), e)
      else if encs.length = 0 then ((false, "Failed to encode face"), e)
      else ((true, "Face registered successfully"),
            loadA (add_face_encoding (add_person e.db name).2 (add_person e.db name).1
              (encs.headD [])) e.tolerance) := rfl

/-- Unfolding equation for `register_face_B` (definitional). -/
theorem register_face_B_def {α : Type} (e : EngineB α) (locs : List FaceLocation)
    (patch : α) (name : Identity) :
    register_face_B e locs patch name =
      if locs.length = 0 then ((false, "No face detected"), e)
      else if 1 < locs.length then
        ((false, "Multiple faces detected - only one person should be visible"), e)
      else ((true, "Face registered successfully"),
            loadB e (add_face_encoding (add_person e.db name).2 (add_person e.db name).1 patch)) := rfl

/-- Claim C5, counterexample: the failure reason strings the engines return
are "No face detected" and "Multiple faces detected - only one person should
be visible", not the claim's quoted "no face detected" and "multiple faces
detected"; at a frame with zero (resp. two) detected faces the returned
reason differs from the claimed string. -/
theorem register_reason_strings_counterexample :
    (register_face_A (loadA ⟨1, [], []⟩ (6/10)) [] [] "alice").1.1 = false
    ∧ (register_face_A (loadA ⟨1, [], []⟩ (6/10)) [] [] "alice").1.2 ≠ "no face detected"
    ∧ (register_face_A (loadA ⟨1, [], []⟩ (6/10)) [(0, 1, 1, 0), (2, 3, 3, 2)] [] "alice").1.1
        = false
    ∧ (register_face_A (loadA ⟨1, [], []⟩ (6/10)) [(0, 1, 1, 0), (2, 3, 3, 2)] [] "alice").1.2
        ≠ "multiple faces detected" := by
  exact ⟨rfl, by decide, rfl, by decide⟩

/-- Claim C5 as amended: registration requires exactly one detected face —
with zero detected faces both engines fail with reason "No face detected",
and with two or more detected faces both fail with reason "Multiple faces
detected - only one person should be visible"; in both failure cases success
is false and the engine is unchanged. -/
theorem register_exactly_one_face_required :
    (∀ (e : EngineA) (encs : List (List ℚ)) (name : Identity),
        register_face_A e [] encs name = ((false, "No face detected"), e))
    ∧ (∀ (e : EngineA) (locs : List FaceLocation) (encs : List (List ℚ)) (name : Identity),
        2 ≤ locs.length →
        register_face_A e locs encs name =
          ((false, "Multiple faces detected - only one person should be visible"), e))
    ∧ (∀ (α : Type) (e : EngineB α) (patch : α) (name : Identity),
        register_face_B e [] patch name = ((false, "No face detected"), e))
    ∧ (∀ (α : Type) (e : EngineB α) (locs : List FaceLocation) (patch : α) (name : Identity),
        2 ≤ locs.length →
        register_face_B e locs patch name =
          ((false, "Multiple faces detected - only one person should be visible"), e)) := by
  refine ⟨fun e encs name => rfl, ?_, fun α e patch name => rfl, ?_⟩
  · intro e locs encs name h
    rw [register_face_A_def, if_neg (by omega), if_pos (by omega)]
  · intro α e locs patch name h
    rw [register_face_B_def, if_neg (by omega), if_pos (by omega)]

/-- Witness for the amended claim C5 at concrete two-face frames. -/
theorem register_exactly_one_face_required_witness :
    register_face_A (loadA ⟨1, [], []⟩ (6/10)) [(0, 1, 1, 0), (2, 3, 3, 2)] [] "bob"
      = ((false, "Multiple faces detected - only one person should be visible"),
         loadA ⟨1, [], []⟩ (6/10))
    ∧ register_face_B (mkEngineB (⟨1, [], []⟩ : Database Nat) 100)
        [(0, 1, 1, 0), (2, 3, 3, 2)] 5 "bob"
      = ((false, "Multiple faces detected - only one person should be visible"),
         mkEngineB ⟨1, [], []⟩ 100) :=
  ⟨register_exactly_one_face_required.2.1 _ _ _ _ (by decide),
   register_exactly_one_face_required.2.2.2 Nat _ _ _ _ (by decide)⟩

/-- Claim C9: failure atomicity of registration.  Whenever `register_face`
returns success = false — zero faces, multiple faces, or (embedding engine
only) the "Failed to encode face" outcome — the engine, and with it the
store and the in-memory cache, is returned unchanged: every mutation
(`add_person`, `add_face_encoding`, reload) happens only on the success
path, which runs after all failure returns. -/
theorem register_failure_atomicity :
    (∀ (e : EngineA) (locs : List FaceLocation) (encs : List (List ℚ)) (name : Identity),
        (register_face_A e locs encs name).1.1 = false →
        (register_face_A e locs encs name).2 = e)
    ∧ (∀ (α : Type) (e : EngineB α) (locs : List FaceLocation) (patch : α) (name : Identity),
        (register_face_B e locs patch name).1.1 = false →
        (register_face_B e locs patch name).2 = e) := by
  constructor
  · intro e locs encs name h
    by_cases h0 : locs.length = 0
    · rw [register_face_A_def, if_pos h0]
    · by_cases h1 : 1 < locs.length
      · rw [register_face_A_def, if_neg h0, if_pos h1]
      · by_cases h2 : encs.length = 0
        · rw [register_face_A_def, if_neg h0, if_neg h1, if_pos h2]
        · exfalso
          rw [register_face_A_def, if_neg h0, if_neg h1, if_neg h2] at h
          exact absurd h (by simp)
  · intro α e locs patch name h
    by_cases h0 : locs.length = 0
    · rw [register_face_B_def, if_pos h0]
    · by_cases h1 : 1 < locs.length
      · rw [register_face_B_def, if_neg h0, if_pos h1]
      · exfalso
        rw [register_face_B_def, if_neg h0, if_neg h1] at h
        exact absurd h (by simp)

/-- Witness for claim C9 at concrete failing registrations (zero faces for
the embedding engine, zero encodings for the encode-failure outcome, and
zero faces for the LBPH engine). -/
theorem register_failure_atomicity_witness :
    (register_face_A (loadA ⟨1, [], []⟩ (6/10)) [] [] "x").2 = loadA ⟨1, [], []⟩ (6/10)
    ∧ (register_face_A (loadA ⟨1, [], []⟩ (6/10)) [(0, 1, 1, 0)] [] "x").2
        = loadA ⟨1, [], []⟩ (6/10)
    ∧ (register_face_B (mkEngineB (⟨1, [], []⟩ : Database Nat) 100) [] 5 "x").2
        = mkEngineB ⟨1, [], []⟩ 100 :=
  ⟨register_failure_atomicity.1 _ [] [] "x" rfl,
   register_failure_atomicity.1 _ [(0, 1, 1, 0)] [] "x" rfl,
   register_failure_atomicity.2 Nat _ [] 5 "x" rfl⟩

theorem nodup_filter_name_length_le_one (name : Identity) :
    ∀ (l : List (Nat × Identity)), (l.map Prod.snd).Nodup →
      (l.filter (fun p => decide (p.2 = name))).length ≤ 1
  | [], _ => by simp
  | a :: t, h => by
      simp only [List.map_cons, List.nodup_cons] at h
      by_cases ha : a.2 = name
      · rw [List.filter_cons_of_pos (by simpa using ha)]
        have ht : t.filter (fun p => decide (p.2 = name)) = [] := by
          rw [List.filter_eq_nil_iff]
          intro b hb hbname
          have hbn : b.2 = name := by simpa using hbname
          exact h.1 ((ha.trans hbn.symm) ▸ List.mem_map_of_mem Prod.snd hb)
        rw [ht]
        simp
      · rw [List.filter_cons_of_neg (by simpa using ha)]
        exact nodup_filter_name_length_le_one name t h.2

/-- Claim C8: `add_person` is idempotent.  Adding `name` yields a person id
and a store in which a second add of the same name returns the same id and
leaves the store unchanged, and which holds exactly one persons row carrying
that name (the UNIQUE constraint is modelled by the store invariant that
person names are distinct). -/
theorem addPerson_idempotent (α : Type) (db : Database α) (name : Identity)
    (hnodup : (db.persons.map Prod.snd).Nodup) :
    ∃ pid db2, add_person db name = (pid, db2)
      ∧ add_person db2 name = (pid, db2)
      ∧ (db2.persons.filter (fun p => decide (p.2 = name))).length = 1 := by
  cases hfind : find_person_id db name with
  | some pid =>
      have h1 : add_person db name = (pid, db) := by
        unfold add_person
        rw [hfind]
      refine ⟨pid, db, h1, h1, ?_⟩
      obtain ⟨q, hfq⟩ : ∃ q, db.persons.find? (fun p => decide (p.2 = name)) = some q := by
        cases hq : db.persons.find? (fun p => decide (p.2 = name)) with
        | some q => exact ⟨q, rfl⟩
        | none => rw [find_person_id, hq] at hfind; exact absurd hfind (by simp)
      have hq0 := List.find?_some hfq
      have hq2 : (fun p => decide (p.2 = name)) q = true := hq0
      have hmemf : q ∈ db.persons.filter (fun p => decide (p.2 = name)) :=
        List.mem_filter.2 ⟨List.mem_of_find?_eq_some hfq, hq2⟩
      have hge : 1 ≤ (db.persons.filter (fun p => decide (p.2 = name))).length :=
        List.length_pos.2 (List.ne_nil_of_mem hmemf)
      exact Nat.le_antisymm (nodup_filter_name_length_le_one name db.persons hnodup) hge
  | none =>
      have hnone : db.persons.find? (fun p => decide (p.2 = name)) = none := by
        cases hq : db.persons.find? (fun p => decide (p.2 = name)) with
        | some q => rw [find_person_id, hq] at hfind; exact absurd hfind (by simp)
        | none => rfl
      have h1 : add_person db name =
          (db.nextPersonId,
           { db with
              nextPersonId := db.nextPersonId + 1,
              persons := db.persons ++ [(db.nextPersonId, name)] }) := by
        unfold add_person
        rw [hfind]
      refine ⟨db.nextPersonId, _, h1, ?_, ?_⟩
      · have hfind2 : find_person_id
            { db with
               nextPersonId := db.nextPersonId + 1,
               persons := db.persons ++ [(db.nextPersonId, name)] } name =
            some db.nextPersonId := by
          rw [find_person_id]
          simp only [List.find?_append, hnone, Option.none_or]
          rw [List.find?_cons_of_pos _ (by simp)]
          rfl
        unfold add_person
        rw [hfind2]
      · simp only [List.filter_append]
        rw [List.filter_eq_nil_iff.2 (List.find?_eq_none.1 hnone),
          List.filter_cons_of_pos (by simp)]
        rfl

/-- Witness for claim C8 on the empty store: adding "alice" twice returns
the same id-and-store pair and leaves exactly one matching persons row. -/
theorem addPerson_idempotent_witness :
    add_person ((add_person (⟨1, [], []⟩ : Database Nat) "alice").2) "alice"
      = add_person (⟨1, [], []⟩ : Database Nat) "alice"
    ∧ (((add_person (⟨1, [], []⟩ : Database Nat) "alice").2).persons.filter
        (fun p => decide (p.2 = "alice"))).length = 1 := by
  obtain ⟨pid, db2, h1, h2, h3⟩ := addPerson_idempotent Nat ⟨1, [], []⟩ "alice" (by simp)
  constructor
  · rw [h1]; exact h2
  · rw [h1]; exact h3

/-- Claim C2 fails on the LBPH engine: its `get_statistics` reports
`total_encodings` (the spec's recordCount) as `len(self.label_to_name)`,
which counts persons, not stored records.  At the concrete failing input —
a gallery holding one record for "alice", then a successful `register_face`
of a second single-face frame for "alice" — the registration succeeds and
the store gains a record (the join grows from 1 to 2 rows), yet the
reported recordCount stays 1 instead of increasing by exactly 1. -/
theorem statistics_recordCount_bug :
    ((register_face_B (mkEngineB (⟨2, [(1, "alice")], [(1, 0)]⟩ : Database Nat) 100)
        [(0, 200, 200, 0)] 7 "alice").1.1 = true)
    ∧ (get_statistics_B (mkEngineB (⟨2, [(1, "alice")], [(1, 0)]⟩ : Database Nat) 100)).2.1 = 1
    ∧ (get_statistics_B (register_face_B
        (mkEngineB (⟨2, [(1, "alice")], [(1, 0)]⟩ : Database Nat) 100)
        [(0, 200, 200, 0)] 7 "alice").2).2.1 = 1
    ∧ (get_all_encodings (mkEngineB (⟨2, [(1, "alice")], [(1, 0)]⟩ : Database Nat) 100).db).length
        = 1
    ∧ (get_all_encodings (register_face_B
        (mkEngineB (⟨2, [(1, "alice")], [(1, 0)]⟩ : Database Nat) 100)
        [(0, 200, 200, 0)] 7 "alice").2.db).length = 2 := by
  exact ⟨rfl, by decide, by decide, by decide, by decide⟩

/-- Unfolding equation for `process_registration_frame` (definitional). -/
theorem process_registration_frame_def (s : AppState α) (locs : List FaceLocation)
    (patch : α) (now : ℚ) :
    process_registration_frame s locs patch now =
      if locs.length ≠ 1 then s
      else if s.capture_delay ≤ now - s.last_capture_time then
        if s.registration_count < s.target_samples then
          if (register_face_B s.face_engine locs patch s.registration_name).1.1 then
            if s.target_samples ≤ s.registration_count + 1 then
              { s with
                 registration_count := s.registration_count + 1,
                 last_capture_time := now,
                 face_engine := (register_face_B s.face_engine locs patch s.registration_name).2,
                 registration_mode := false }
            else
              { s with
                 registration_count := s.registration_count + 1,
                 last_capture_time := now,
                 face_engine := (register_face_B s.face_engine locs patch s.registration_name).2 }
          else
            { s with
               face_engine := (register_face_B s.face_engine locs patch s.registration_name).2 }
        else s
      else s := rfl

/-- Claim C6: the enrollment step relation.  While the state machine is
Capturing (`registration_mode = true`), processing one frame (with detected
faces `locs` at clock time `now`) satisfies: (i) a frame without exactly one
detected face changes nothing — in particular the machine stays Capturing;
(ii) a capture (the captured count incrementing) happens only if the frame
has exactly one detected face and the elapsed time since the last successful
capture is at least the debounce interval, and on capture the last-capture
timestamp is set to `now`; (iii) on a capture the machine leaves Capturing
exactly when the new count reaches the target sample count; (iv) a step
without a capture leaves the machine Capturing. -/
theorem enrollment_capture_step (α : Type) (s : AppState α)
    (locs : List FaceLocation) (patch : α) (now : ℚ)
    (hmode : s.registration_mode = true) :
    (locs.length ≠ 1 → process_registration_frame s locs patch now = s)
    ∧ ((process_registration_frame s locs patch now).registration_count
          = s.registration_count + 1 →
        locs.length = 1 ∧ s.capture_delay ≤ now - s.last_capture_time
        ∧ (process_registration_frame s locs patch now).last_capture_time = now)
    ∧ ((process_registration_frame s locs patch now).registration_count
          = s.registration_count + 1 →
        ((process_registration_frame s locs patch now).registration_mode = false
          ↔ s.target_samples ≤ s.registration_count + 1))
    ∧ ((process_registration_frame s locs patch now).registration_count
          = s.registration_count →
        (process_registration_frame s locs patch now).registration_mode = true) := by
  by_cases hone : locs.length ≠ 1
  · have hres : process_registration_frame s locs patch now = s := by
      rw [process_registration_frame_def, if_pos hone]
    refine ⟨fun _ => hres, ?_, ?_, ?_⟩ <;> rw [hres]
    · intro habs; omega
    · intro habs; omega
    · intro _; exact hmode
  · have hlen1 : locs.length = 1 := by omega
    by_cases hdel : s.capture_delay ≤ now - s.last_capture_time
    · by_cases hcnt : s.registration_count < s.target_samples
      · have hsucc : (register_face_B s.face_engine locs patch s.registration_name).1.1
            = true := by
          rw [register_face_B_def, if_neg (by omega), if_neg (by omega)]
        by_cases htar : s.target_samples ≤ s.registration_count + 1
        · have hres : process_registration_frame s locs patch now =
              { s with
                 registration_count := s.registration_count + 1,
                 last_capture_time := now,
                 face_engine := (register_face_B s.face_engine locs patch s.registration_name).2,
                 registration_mode := false } := by
            rw [process_registration_frame_def, if_neg hone, if_pos hdel, if_pos hcnt,
              if_pos hsucc, if_pos htar]
          refine ⟨fun h => absurd hlen1 h, ?_, ?_, ?_⟩ <;> rw [hres]
          · intro _; exact ⟨hlen1, hdel, rfl⟩
          · intro _; exact ⟨fun _ => htar, fun _ => rfl⟩
          · intro habs
            have habs2 : s.registration_count + 1 = s.registration_count := habs
            omega
        · have hres : process_registration_frame s locs patch now =
              { s with
                 registration_count := s.registration_count + 1,
                 last_capture_time := now,
                 face_engine := (register_face_B s.face_engine locs patch s.registration_name).2 } := by
            rw [process_registration_frame_def, if_neg hone, if_pos hdel, if_pos hcnt,
              if_pos hsucc, if_neg htar]
          refine ⟨fun h => absurd hlen1 h, ?_, ?_, ?_⟩ <;> rw [hres]
          · intro _; exact ⟨hlen1, hdel, rfl⟩
          · intro _
            constructor
            · intro hmf
              exact absurd (hmode ▸ hmf) (by simp)
            · intro hta; exact absurd hta htar
          · intro habs
            have habs2 : s.registration_count + 1 = s.registration_count := habs
            omega
      · have hres : process_registration_frame s locs patch now = s := by
          rw [process_registration_frame_def, if_neg hone, if_pos hdel, if_neg hcnt]
        refine ⟨fun h => absurd hlen1 h, ?_, ?_, ?_⟩ <;> rw [hres]
        · intro habs; omega
        · intro habs; omega
        · intro _; exact hmode
    · have hres : process_registration_frame s locs patch now = s := by
        rw [process_registration_frame_def, if_neg hone, if_neg hdel]
      refine ⟨fun h => absurd hlen1 h, ?_, ?_, ?_⟩ <;> rw [hres]
      · intro habs; omega
      · intro habs; omega
      · intro _; exact hmode

/-- Witness for claim C6 at a concrete Capturing state fed a zero-face
frame: the state is unchanged. -/
theorem enrollment_capture_step_witness :
    process_registration_frame
      (⟨true, 0, 0, "alice", 10, 1, mkEngineB (⟨1, [], []⟩ : Database Nat) 100⟩ : AppState Nat)
      [] 5 3
      = ⟨true, 0, 0, "alice", 10, 1, mkEngineB (⟨1, [], []⟩ : Database Nat) 100⟩ :=
  (enrollment_capture_step Nat
    ⟨true, 0, 0, "alice", 10, 1, mkEngineB (⟨1, [], []⟩ : Database Nat) 100⟩
    [] 5 3 rfl).1 (by decide)

/-- Unfolding equation for `delete_person_A` (definitional). -/
theorem delete_person_A_def (e : EngineA) (name : Identity) :
    delete_person_A e name =
      ((delete_person e.db name).1,
       if (delete_person e.db name).1 then loadA (delete_person e.db name).2 e.tolerance
       else { e with db := (delete_person e.db name).2 }) := rfl

/-- Unfolding equation for `delete_person_B` (definitional). -/
theorem delete_person_B_def {α : Type} (e : EngineB α) (name : Identity) :
    delete_person_B e name =
      ((delete_person e.db name).1,
       if (delete_person e.db name).1 then loadB e (delete_person e.db name).2
       else { e with db := (delete_person e.db name).2 }) := rfl

/-- Unfolding equation for `loadB` (definitional). -/
theorem loadB_def {α : Type} (e : EngineB α) (db : Database α) :
    loadB e db =
      if (get_all_persons db).length = 0 then { e with db := db, trained := false }
      else
        { e with
           db := db,
           label_to_name := (get_all_persons db).enum.map (fun ip => (ip.1, ip.2.1)),
           name_to_label := (get_all_persons db).enum.map (fun ip => (ip.2.1, ip.1)),
           trained :=
             0 < ((get_all_persons db).map
               (fun p => (get_person_encodings db p.1).length)).sum } := rfl

theorem loadB_db {α : Type} (e : EngineB α) (db : Database α) : (loadB e db).db = db := by
  rw [loadB_def]
  split <;> rfl

theorem delete_person_persons {α : Type} (db : Database α) (name : Identity) :
    (delete_person db name).2.persons
      = db.persons.filter (fun p => !decide (p.2 = name)) := rfl

theorem mem_delete_person_ne {α : Type} {db : Database α} {name : Identity}
    {p : Nat × Identity} (hp : p ∈ (delete_person db name).2.persons) : ¬ p.2 = name := by
  rw [delete_person_persons] at hp
  simpa using (List.mem_filter.1 hp).2

theorem delete_person_name_not_mem {α : Type} (db : Database α) (name : Identity) :
    name ∉ (delete_person db name).2.persons.map Prod.snd := by
  intro hmem
  obtain ⟨p, hp, hpe⟩ := List.mem_map.1 hmem
  exact mem_delete_person_ne hp hpe

theorem get_all_encodings_name_mem {α : Type} {db : Database α} {r : Identity × α}
    (hr : r ∈ get_all_encodings db) : r.1 ∈ db.persons.map Prod.snd := by
  obtain ⟨e, _, hfe⟩ := List.mem_filterMap.1 hr
  cases hl : db.persons.lookup e.1 with
  | none => rw [hl] at hfe; simp at hfe
  | some n =>
      rw [hl] at hfe
      simp only [Option.map_some', Option.some.injEq] at hfe
      rw [← hfe]
      exact lookup_mem_values hl

theorem recognize_face_one_name_mem (names : List Identity) (ds : List ℚ) (tol : ℚ) :
    (recognize_face_one names ds tol).1 ∈ names
    ∨ (recognize_face_one names ds tol).1 = "Unknown" := by
  rw [recognize_face_one_def]
  by_cases hpos : 0 < ds.length
  · by_cases hflag : (compare_faces ds tol).getD (argmin ds) false = true
    · rw [if_pos hpos, if_pos hflag]
      by_cases hb : argmin ds < names.length
      · left
        show names.getD (argmin ds) "Unknown" ∈ names
        rw [List.getD_eq_getElem names "Unknown" hb]
        exact List.getElem_mem _
      · right
        show names.getD (argmin ds) "Unknown" = "Unknown"
        exact List.getD_eq_default names "Unknown" (Nat.le_of_not_lt hb)
    · rw [if_pos hpos, if_neg hflag]; right; rfl
  · rw [if_neg hpos]; right; rfl

theorem recognize_face_one_lbph_name_mem (ltn : List (Nat × Identity)) (tol : ℚ)
    (label : Nat) (score : ℚ) :
    (recognize_face_one_lbph ltn tol label score).1 ∈ ltn.map Prod.snd
    ∨ (recognize_face_one_lbph ltn tol label score).1 = "Unknown" := by
  by_cases hs : score < tol
  · cases hl : ltn.lookup label with
    | some n =>
        left
        rw [recognize_face_one_lbph, if_pos hs, hl]
        exact lookup_mem_values hl
    | none => right; rw [recognize_face_one_lbph, if_pos hs, hl]
  · right; rw [recognize_face_one_lbph, if_neg hs]

theorem recognize_faces_A_name_ne {e : EngineA} {name : Identity}
    (hname : name ≠ "Unknown") (hnot : name ∉ e.known_names)
    (probeDists : List (List ℚ)) :
    (recognize_faces_A e probeDists).all (fun r => !decide (r.1 = name)) = true := by
  rw [List.all_eq_true]
  intro r hr
  rw [recognize_faces_A] at hr
  by_cases hc : e.known_encodings.length = 0
  · rw [if_pos hc] at hr
    exact absurd hr (List.not_mem_nil r)
  · rw [if_neg hc] at hr
    obtain ⟨ds, _, hds⟩ := List.mem_map.1 hr
    simp only [Bool.not_eq_true', decide_eq_false_iff_not]
    intro heq
    rcases recognize_face_one_name_mem e.known_names ds e.tolerance with hm | hu
    · exact hnot (heq ▸ hds ▸ hm)
    · exact hname (heq ▸ hds ▸ hu)

theorem loadB_label_values {α : Type} (e : EngineB α) (db : Database α) :
    (loadB e db).trained = false
    ∨ (loadB e db).label_to_name.map Prod.snd = db.persons.reverse.map Prod.snd := by
  by_cases hz : (get_all_persons db).length = 0
  · left; rw [loadB_def, if_pos hz]
  · right
    rw [loadB_def, if_neg hz]
    show ((get_all_persons db).enum.map (fun ip => (ip.1, ip.2.1))).map Prod.snd
      = db.persons.reverse.map Prod.snd
    have h1 : ((get_all_persons db).enum.map (fun ip => (ip.1, ip.2.1))).map Prod.snd
        = ((get_all_persons db).enum.map Prod.snd).map (fun p => p.1) := by
      rw [List.map_map, List.map_map]
      rfl
    rw [h1, List.enum_map_snd]
    show (db.persons.reverse.map
        (fun p => (p.2, (db.encodings.filter (fun e => decide (e.1 = p.1))).length, p.1))).map
        (fun p => p.1) = db.persons.reverse.map Prod.snd
    rw [List.map_map]
    rfl

/-- Claim C3: `deleteIdentity`.  For a name present in the gallery store
(and distinct from the sentinel "Unknown"), deleting through either engine
removes the person row and all of that person's feature records (the
schema's ON DELETE CASCADE), reloads the cache, returns true, and afterwards
no `recognize_faces` call on any frame ever produces that name as a result
identity — for the embedding engine the name is gone from `known_names`, and
for the LBPH engine it is gone from the retrained label map (or the engine
is untrained and returns no results at all). -/
theorem deleteIdentity_removes_all (dbA : Database (List ℚ)) (tolA : ℚ)
    (dbB : Database Nat) (tolB : ℚ) (name : Identity)
    (hname : name ≠ "Unknown")
    (hA : dbA.persons.any (fun p => decide (p.2 = name)) = true)
    (hB : dbB.persons.any (fun p => decide (p.2 = name)) = true) :
    (delete_person_A (loadA dbA tolA) name).1 = true
    ∧ ((delete_person_A (loadA dbA tolA) name).2.db.persons.all
        (fun p => !decide (p.2 = name)) = true)
    ∧ get_person_encodings (delete_person_A (loadA dbA tolA) name).2.db name = []
    ∧ ((delete_person_A (loadA dbA tolA) name).2.known_names.all
        (fun n => !decide (n = name)) = true)
    ∧ (∀ probeDists : List (List ℚ),
        (recognize_faces_A (delete_person_A (loadA dbA tolA) name).2 probeDists).all
          (fun r => !decide (r.1 = name)) = true)
    ∧ (delete_person_B (mkEngineB dbB tolB) name).1 = true
    ∧ (∀ preds : List (Nat × ℚ),
        (recognize_faces_B (delete_person_B (mkEngineB dbB tolB) name).2 preds).all
          (fun r => !decide (r.1 = name)) = true) := by
  have hsuccA : (delete_person (loadA dbA tolA).db name).1 = true := hA
  have heA : (delete_person_A (loadA dbA tolA) name).2
      = loadA (delete_person (loadA dbA tolA).db name).2 (loadA dbA tolA).tolerance := by
    rw [delete_person_A_def, if_pos hsuccA]
  have hnotA : name ∉ (delete_person_A (loadA dbA tolA) name).2.known_names := by
    rw [heA]
    intro hmem
    obtain ⟨r, hr, hrn⟩ := List.mem_map.1 hmem
    have hmm := get_all_encodings_name_mem hr
    rw [hrn] at hmm
    exact delete_person_name_not_mem (loadA dbA tolA).db name hmm
  have hdbB : (mkEngineB dbB tolB).db = dbB := loadB_db _ _
  have hsuccB : (delete_person (mkEngineB dbB tolB).db name).1 = true := by
    rw [hdbB]; exact hB
  have heB : (delete_person_B (mkEngineB dbB tolB) name).2
      = loadB (mkEngineB dbB tolB) (delete_person (mkEngineB dbB tolB).db name).2 := by
    rw [delete_person_B_def, if_pos hsuccB]
  refine ⟨hsuccA, ?_, ?_, ?_, ?_, hsuccB, ?_⟩
  · rw [heA, List.all_eq_true]
    intro p hp
    simpa using mem_delete_person_ne hp
  · rw [heA]
    rw [get_person_encodings, List.filterMap_eq_nil_iff]
    intro r hr
    have hne : ¬ r.1 = name := by
      intro heq
      have hmm := get_all_encodings_name_mem hr
      rw [heq] at hmm
      exact delete_person_name_not_mem (loadA dbA tolA).db name hmm
    rw [if_neg hne]
  · rw [List.all_eq_true]
    intro n hn
    simp only [Bool.not_eq_true', decide_eq_false_iff_not]
    intro heq
    exact hnotA (heq ▸ hn)
  · exact fun probeDists => recognize_faces_A_name_ne hname hnotA probeDists
  · intro preds
    rw [heB]
    rcases loadB_label_values (mkEngineB dbB tolB)
        (delete_person (mkEngineB dbB tolB).db name).2 with htr | hval
    · rw [recognize_faces_B, if_pos htr]
      rfl
    · rw [recognize_faces_B]
      by_cases htr2 : (loadB (mkEngineB dbB tolB)
          (delete_person (mkEngineB dbB tolB).db name).2).trained = false
      · rw [if_pos htr2]; rfl
      · rw [if_neg htr2, List.all_eq_true]
        intro r hr
        obtain ⟨p, _, hpr⟩ := List.mem_map.1 hr
        simp only [Bool.not_eq_true', decide_eq_false_iff_not]
        intro heq
        rcases recognize_face_one_lbph_name_mem
            (loadB (mkEngineB dbB tolB) (delete_person (mkEngineB dbB tolB).db name).2).label_to_name
            (loadB (mkEngineB dbB tolB) (delete_person (mkEngineB dbB tolB).db name).2).tolerance
            p.1 p.2 with hm | hu
        · rw [hval] at hm
          rw [hpr, heq] at hm
          rw [List.map_reverse, List.mem_reverse] at hm
          exact delete_person_name_not_mem (mkEngineB dbB tolB).db name hm
        · rw [hpr, heq] at hu
          exact hname hu

/-- Witness for claim C3: deleting "alice" from concrete one-person stores
through both engines, then recognising with one probe each. -/
theorem deleteIdentity_removes_all_witness :
    (delete_person_A (loadA ⟨2, [(1, "alice")], [(1, [0])]⟩ (6/10)) "alice").1 = true
    ∧ ((delete_person_A (loadA ⟨2, [(1, "alice")], [(1, [0])]⟩ (6/10)) "alice").2.db.persons.all
        (fun p => !decide (p.2 = "alice")) = true)
    ∧ get_person_encodings
        (delete_person_A (loadA ⟨2, [(1, "alice")], [(1, [0])]⟩ (6/10)) "alice").2.db "alice" = []
    ∧ ((delete_person_A (loadA ⟨2, [(1, "alice")], [(1, [0])]⟩ (6/10)) "alice").2.known_names.all
        (fun n => !decide (n = "alice")) = true)
    ∧ ((recognize_faces_A (delete_person_A (loadA ⟨2, [(1, "alice")], [(1, [0])]⟩ (6/10))
          "alice").2 [[(0 : ℚ)]]).all (fun r => !decide (r.1 = "alice")) = true)
    ∧ (delete_person_B (mkEngineB (⟨2, [(1, "alice")], [(1, 0)]⟩ : Database Nat) 100) "alice").1
        = true
    ∧ ((recognize_faces_B (delete_person_B
          (mkEngineB (⟨2, [(1, "alice")], [(1, 0)]⟩ : Database Nat) 100) "alice").2
          [(0, (30 : ℚ))]).all (fun r => !decide (r.1 = "alice")) = true) := by
  obtain ⟨h1, h2, h3, h4, h5, h6, h7⟩ :=
    deleteIdentity_removes_all ⟨2, [(1, "alice")], [(1, [0])]⟩ (6/10)
      (⟨2, [(1, "alice")], [(1, 0)]⟩ : Database Nat) 100 "alice"
      (by decide) (by decide) (by decide)
  exact ⟨h1, h2, h3, h4, h5 [[(0 : ℚ)]], h6, h7 [(0, (30 : ℚ))]⟩

end FacialRec
